import Mathlib

/-!
Verification development for the stagehand v3 agent execution loop and its
dual-mode caching layer.

The definitions below are a shallow embedding of the TypeScript sources:

* `packages/core/lib/v3/handlers/v3AgentHandler.ts` — the agent loop
  (`executeWithCodeAssist` for the OAuth backend, `createStepHandler` /
  `consolidateMetricsAndResult` for the AI-SDK backend, `handleStop`,
  `prepareAgent`, and `execute`'s top-level catch);
* `packages/core/lib/v3/llm/CodeAssistClient.ts` — `createChatCompletion`'s
  retry logic and the orchestrator `V3.agent().execute` body (cache replay,
  recording and store).

Environmental effects are turned into data: the LLM's per-step responses,
tool execution outcomes, pause-callback behaviour and live-page URLs are
supplied by a script; callbacks (`onStep`) are modelled by collecting the
values they would be invoked with; wall-clock timestamps (`Date.now()`) are
modelled as `0`; token-usage accumulation and the metrics sink are not
modelled (no claim concerns them).

The helper `mapToolResultToActions` lives in
`packages/core/lib/v3/agent/utils/actionMapping.ts`, which is not among the
provided sources; per the specification it maps a tool's raw result to
"zero or more AgentAction records", so each scripted tool call carries the
list of actions that the mapper returns for it.
-/

namespace Stagehand

/-- `AgentAction` from `types/public/agent.ts`: a discriminated action record.
Only the fields the agent loop itself reads or writes are modelled; the
loop stamps `pageUrl` and `timestamp` on every appended action
(`Date.now()` is modelled as `0`). -/
structure AgentAction where
  type : String
  reasoning : Option String := none
  taskCompleted : Option Bool := none
  pageUrl : String := ""
  timestamp : Nat := 0
  deriving Repr, DecidableEq

/-- `AgentResult` from `types/public/agent.ts` (the optional `usage` and
`metadata` fields are not modelled; no claim concerns them). -/
structure AgentResult where
  success : Bool
  message : String
  actions : List AgentAction
  completed : Bool
  deriving Repr, DecidableEq

/-- `AgentState` from `types/public/agent.ts`: the loop-scoped mutable state. -/
structure AgentState where
  collectedReasoning : List String
  actions : List AgentAction
  finalMessage : String
  completed : Bool
  currentPageUrl : String
  deriving Repr, DecidableEq

/-- `AgentStepUpdate` from `types/public/agent.ts`: the progress notification
delivered to the caller's `onStep` callback (`usage` not modelled). -/
structure AgentStepUpdate where
  stepNumber : Nat
  actions : List AgentAction
  message : String
  completed : Bool
  currentUrl : String
  deriving Repr, DecidableEq

/-- JavaScript `arr.slice(-n)`: the last `n` elements, except that
`slice(-0)` is `slice(0)`, the whole array.  Used by both step handlers to
select "the actions of this step" out of the accumulated action list. -/
def jsSliceNeg (xs : List AgentAction) (n : Nat) : List AgentAction :=
  if n = 0 then xs else xs.drop (xs.length - n)

/-- `JSON.stringify({ error: msg })` as pushed into `toolResults` by the
OAuth tool loop (JSON escaping inside `msg` is not modelled). -/
def jsonError (msg : String) : String :=
  "\x7b\"error\":\"" ++ msg ++ "\"\x7d"

/-- `JSON.stringify({ success: true })`, the tool result recorded for the
reserved `close` tool by the OAuth loop. -/
def jsonCloseOk : String := "\x7b\"success\":true\x7d"

/-- `event.text || state.collectedReasoning.slice(-1)[0] || ""`: the message
placed on a step-completed update. -/
def stepMessage (textContent : String) (st : AgentState) : String :=
  if textContent ≠ "" then textContent else (st.collectedReasoning.getLast?).getD ""

/-- Outcome of executing one (non-`close`) tool call in the OAuth loop:
the tool is absent from the merged tool set, or `tool.execute` throws, or it
returns a result (serialized as `resultJson`) after which
`awaitActivePage().url()` yields `urlAfter`. -/
inductive ToolExec
  | missing
  | throws (msg : String)
  | ok (resultJson : String) (urlAfter : String)
  deriving Repr, DecidableEq

/-- One tool call as returned by the model in an OAuth-path step, together
with its scripted environment: `mapped` is what `mapToolResultToActions`
returns for this call (zero or more actions, per the spec), `exec` is the
execution outcome for non-`close` tools.  `taskComplete` and
`closeReasoning` are the parsed `close` arguments (`taskComplete := false`
models both an explicit `false` and an omitted field, which JavaScript
treats alike). -/
structure ScriptedToolCall where
  name : String
  taskComplete : Bool := false
  closeReasoning : Option String := none
  mapped : List AgentAction := []
  exec : ToolExec := ToolExec.ok "" ""
  deriving Repr, DecidableEq

/-- The scripted environment behaviour at one iteration of the OAuth loop:
whether `checkPauseState` rejects at this step boundary (`none` covers both
"no callback supplied" and "callback resolves"), whether the response has a
first choice, the choice's text content and its tool calls. -/
structure ScriptedStep where
  pauseRejects : Option String := none
  hasChoice : Bool := true
  text : String := ""
  toolCalls : List ScriptedToolCall := []
  deriving Repr, DecidableEq

/-- The inner `for (const toolCall of toolCalls)` loop of
`executeWithCodeAssist` (v3AgentHandler.ts lines 419-533).  Returns the
state after the loop, the `toolResults` strings pushed, and the
`completed:true` step updates delivered to `onStep`.  The `close` branch
marks the state completed, computes the final message, maps and stamps its
actions, records `{"success":true}` and breaks; an unknown tool or a
throwing tool records an error payload and continues; a successful tool
appends its stamped actions, refreshes the page URL and records its result. -/
def processToolCalls (textContent : String) (stepNumber : Nat) :
    List ScriptedToolCall → AgentState →
    AgentState × List String × List AgentStepUpdate
  | [], st => (st, [], [])
  | tc :: rest, st =>
    if tc.name = "close" then
      let st1 : AgentState := { st with completed := true }
      let st2 : AgentState :=
        if tc.taskComplete then
          let closeReasoning := tc.closeReasoning.getD ""
          let allReasoning := String.intercalate " " st1.collectedReasoning
          { st1 with finalMessage :=
              if closeReasoning ≠ "" then String.trim (allReasoning ++ " " ++ closeReasoning)
              else if allReasoning ≠ "" then allReasoning else "Task completed successfully" }
        else { st1 with finalMessage := "Task could not be completed" }
      let stamped := tc.mapped.map fun a => { a with pageUrl := st2.currentPageUrl, timestamp := 0 }
      let st3 : AgentState := { st2 with actions := st2.actions ++ stamped }
      let upd : AgentStepUpdate :=
        { stepNumber := stepNumber,
          actions := jsSliceNeg st3.actions tc.mapped.length,
          message := stepMessage textContent st3,
          completed := true,
          currentUrl := st3.currentPageUrl }
      (st3, [jsonCloseOk], [upd])
    else
      match tc.exec with
      | ToolExec.missing =>
        let r := processToolCalls textContent stepNumber rest st
        (r.1, jsonError ("Unknown tool: " ++ tc.name) :: r.2.1, r.2.2)
      | ToolExec.throws msg =>
        let r := processToolCalls textContent stepNumber rest st
        (r.1, jsonError msg :: r.2.1, r.2.2)
      | ToolExec.ok resultJson urlAfter =>
        let stamped := tc.mapped.map fun a => { a with pageUrl := st.currentPageUrl, timestamp := 0 }
        let st1 : AgentState :=
          { st with actions := st.actions ++ stamped, currentPageUrl := urlAfter }
        let upd : AgentStepUpdate :=
          { stepNumber := stepNumber,
            actions := jsSliceNeg st1.actions tc.mapped.length,
            message := stepMessage textContent st1,
            completed := true,
            currentUrl := urlAfter }
        let r := processToolCalls textContent stepNumber rest st1
        (r.1, resultJson :: r.2.1, upd :: r.2.2)

/-- Observable effects accumulated across the OAuth loop: the updates
delivered to `onStep`, the number of `createChatCompletion` invocations, and
the per-step `toolResults` lists fed back to the model. -/
structure OAuthTrace where
  updates : List AgentStepUpdate
  llmCalls : Nat
  toolResults : List (List String)
  deriving Repr, DecidableEq

/-- The body of one iteration of the OAuth agent loop after the pause check
(v3AgentHandler.ts lines 339-544): emit the step-started update, call the
LLM, and — unless the response lacks a choice or contains no tool calls —
collect the reasoning text and process the tool calls.  The boolean is
`true` when the loop proceeds to the next iteration (no `break`). -/
def oauthStepBody (s : ScriptedStep) (stepNumber : Nat) (st : AgentState)
    (tr : OAuthTrace) : (AgentState × OAuthTrace) × Bool :=
  let tr1 : OAuthTrace :=
    { tr with
      updates := tr.updates ++
        [{ stepNumber := stepNumber, actions := [], message := "",
           completed := false, currentUrl := st.currentPageUrl }],
      llmCalls := tr.llmCalls + 1 }
  if s.hasChoice = false then ((st, tr1), false)
  else
    let st1 : AgentState :=
      if s.text ≠ "" then
        { st with collectedReasoning := st.collectedReasoning ++ [s.text] }
      else st
    if s.toolCalls.isEmpty then ((st1, tr1), false)
    else
      let p := processToolCalls s.text stepNumber s.toolCalls st1
      let tr2 : OAuthTrace :=
        { tr1 with
          updates := tr1.updates ++ p.2.2,
          toolResults := tr1.toolResults ++ [p.2.1] }
      ((p.1, tr2), !p.1.completed)

/-- The OAuth agent loop
`for (let step = 0; step < maxSteps && !state.completed; step++)`
(v3AgentHandler.ts lines 322-545), driven by the scripted environment.
A pause-callback rejection at the step boundary is caught and breaks the
loop; the fuel argument is the remaining step budget. -/
def oauthLoop (script : Nat → ScriptedStep) :
    Nat → Nat → Nat → AgentState → OAuthTrace → AgentState × OAuthTrace
  | 0, _, _, st, tr => (st, tr)
  | fuel + 1, idx, stepNumber, st, tr =>
    if st.completed then (st, tr)
    else
      match (script idx).pauseRejects with
      | some _ => (st, tr)
      | none =>
        let r := oauthStepBody (script idx) (stepNumber + 1) st tr
        if r.2 then oauthLoop script fuel (idx + 1) (stepNumber + 1) r.1.1 r.1.2
        else r.1

/-- The full observable outcome of one `executeWithCodeAssist` run. -/
structure OAuthRun where
  result : AgentResult
  updates : List AgentStepUpdate
  llmCalls : Nat
  toolResults : List (List String)
  deriving Repr, DecidableEq

/-- The fresh `AgentState` built at the top of `V3AgentHandler.execute` and
`V3AgentHandler.stream` (v3AgentHandler.ts lines 231-237). -/
def initAgentState (initialPageUrl : String) : AgentState :=
  { collectedReasoning := [], actions := [], finalMessage := "",
    completed := false, currentPageUrl := initialPageUrl }

/-- `V3AgentHandler.executeWithCodeAssist` (v3AgentHandler.ts lines
288-579): run the OAuth loop from the freshly initialised state, then build
the final `AgentResult` with `success := state.completed`,
`completed := state.completed` and the fallback final message. -/
def executeWithCodeAssist (script : Nat → ScriptedStep) (maxSteps : Nat)
    (initialPageUrl : String) : OAuthRun :=
  let st0 : AgentState := initAgentState initialPageUrl
  let r := oauthLoop script maxSteps 0 0 st0
    { updates := [], llmCalls := 0, toolResults := [] }
  let st := r.1
  let finalMessage :=
    if st.finalMessage ≠ "" then st.finalMessage
    else
      let allReasoning := String.trim (String.intercalate " " st.collectedReasoning)
      if allReasoning ≠ "" then allReasoning else "Task execution completed"
  { result :=
      { success := st.completed, message := finalMessage,
        actions := st.actions, completed := st.completed },
    updates := r.2.updates, llmCalls := r.2.llmCalls,
    toolResults := r.2.toolResults }

/-- One tool call inside an AI-SDK `StepResult` event, with the scripted
output of `mapToolResultToActions` for it (`mapped`, zero or more actions
per the spec — the mapper itself is outside the provided sources). -/
structure SdkToolCall where
  toolName : String
  taskComplete : Bool := false
  closeReasoning : Option String := none
  mapped : List AgentAction := []
  deriving Repr, DecidableEq

/-- One `onStepFinish` event delivered by the AI SDK to the handler built by
`createStepHandler`: the step's text, its tool calls, whether the
`checkPauseState` callback rejects at this boundary, and the live page URL
after the step's tools ran. -/
structure SdkStepEvent where
  text : String := ""
  toolCalls : List SdkToolCall := []
  pauseRejects : Option String := none
  urlAfterStep : String := ""
  deriving Repr, DecidableEq

/-- One iteration of the `for` loop over `event.toolCalls` inside the
handler built by `createStepHandler` (v3AgentHandler.ts lines 163-199):
push the event text into the collected reasoning (the source does this once
per tool call), handle the reserved `close` tool (mark completed, compute
the final message when `taskComplete` is set — this path has no
`taskComplete:false` message branch), then append the mapped actions
stamped with the current page URL and timestamp. -/
def stepHandlerToolCall (text : String) (st : AgentState) (tc : SdkToolCall) :
    AgentState :=
  let st1 : AgentState :=
    if text ≠ "" then
      { st with collectedReasoning := st.collectedReasoning ++ [text] }
    else st
  let st2 : AgentState :=
    if tc.toolName = "close" then
      let stc : AgentState := { st1 with completed := true }
      if tc.taskComplete then
        let closeReasoning := tc.closeReasoning.getD ""
        let allReasoning := String.intercalate " " stc.collectedReasoning
        { stc with finalMessage :=
            if closeReasoning ≠ "" then String.trim (allReasoning ++ " " ++ closeReasoning)
            else if allReasoning ≠ "" then allReasoning else "Task completed successfully" }
      else stc
    else st1
  let stamped := tc.mapped.map fun a => { a with pageUrl := st2.currentPageUrl, timestamp := 0 }
  { st2 with actions := st2.actions ++ stamped }

/-- The handler returned by `createStepHandler` (v3AgentHandler.ts lines
118-215), applied to a list of `onStepFinish` events.  Each event emits a
step-started update, then checks the pause callback — a rejection is
re-thrown to abort the AI-SDK generation (returned as `some message`, the
remaining events unprocessed) — then, when the event has tool calls,
processes them, refreshes the page URL and emits the step-completed update
whose `actions` are `state.actions.slice(-event.toolCalls.length)`. -/
def runStepHandler :
    List SdkStepEvent → AgentState → Nat →
    AgentState × List AgentStepUpdate × Option String
  | [], st, _ => (st, [], none)
  | ev :: rest, st, stepNumber =>
    let sn := stepNumber + 1
    let startUpd : AgentStepUpdate :=
      { stepNumber := sn, actions := [], message := "",
        completed := false, currentUrl := st.currentPageUrl }
    match ev.pauseRejects with
    | some m => (st, [startUpd], some m)
    | none =>
      if ev.toolCalls.isEmpty then
        let r := runStepHandler rest st sn
        (r.1, startUpd :: r.2.1, r.2.2)
      else
        let st1 := ev.toolCalls.foldl (stepHandlerToolCall ev.text) st
        let st2 : AgentState := { st1 with currentPageUrl := ev.urlAfterStep }
        let compUpd : AgentStepUpdate :=
          { stepNumber := sn,
            actions := jsSliceNeg st2.actions ev.toolCalls.length,
            message := stepMessage ev.text st2,
            completed := true,
            currentUrl := st2.currentPageUrl }
        let r := runStepHandler rest st2 sn
        (r.1, startUpd :: compUpd :: r.2.1, r.2.2)

/-- `V3AgentHandler.consolidateMetricsAndResult` (v3AgentHandler.ts lines
652-690), restricted to result construction (the metrics sink is not
modelled): fill the fallback final message and return the `AgentResult`
with `success := state.completed` and `completed := state.completed`. -/
def consolidateMetricsAndResult (st : AgentState) (resultText : String) :
    AgentResult :=
  let fm :=
    if st.finalMessage ≠ "" then st.finalMessage
    else
      let allReasoning := String.trim (String.intercalate " " st.collectedReasoning)
      if allReasoning ≠ "" then allReasoning else resultText
  { success := st.completed,
    message := if fm ≠ "" then fm else "Task execution completed",
    actions := st.actions,
    completed := st.completed }

/-- Scripted input for one AI-SDK-path `execute` run: the `onStepFinish`
events the generation produces, an optional terminal provider failure
(`generateText` rejecting after the processed events), the final
`result.text`, and the starting page URL. -/
structure SdkRunInput where
  events : List SdkStepEvent
  providerFailure : Option String := none
  finalText : String := ""
  initialPageUrl : String := ""
  deriving Repr

/-- How the `try` block of `V3AgentHandler.execute` ends on the AI-SDK
path: the consolidated result, or an error thrown out of `generateText`
together with the state accumulated up to the throw (the handler mutates
the state that `execute` closes over). -/
inductive SdkBodyResult
  | ok (result : AgentResult)
  | threw (message : String) (st : AgentState)
  deriving Repr, DecidableEq

/-- The body of `V3AgentHandler.execute`'s `try` block on the AI-SDK path
(v3AgentHandler.ts lines 255-266): run the generation (its step handler
over the scripted events), then consolidate.  An error — a pause rejection
re-thrown by the handler, or a provider failure — is the rejection of the
`generateText` promise. -/
def executeSdkBody (inp : SdkRunInput) :
    SdkBodyResult × List AgentStepUpdate :=
  let r := runStepHandler inp.events (initAgentState inp.initialPageUrl) 0
  match r.2.2 with
  | some m => (SdkBodyResult.threw m r.1, r.2.1)
  | none =>
    match inp.providerFailure with
    | some m => (SdkBodyResult.threw m r.1, r.2.1)
    | none => (SdkBodyResult.ok (consolidateMetricsAndResult r.1 inp.finalText), r.2.1)

/-- `V3AgentHandler.execute`'s `catch` (v3AgentHandler.ts lines 267-280):
any error thrown inside the `try` is converted into an `AgentResult` with
`success:false`, `completed:false`, the `Failed to execute task: ` message
and whatever actions had accumulated; `execute` always returns a result. -/
def executeSdk (inp : SdkRunInput) : AgentResult × List AgentStepUpdate :=
  match executeSdkBody inp with
  | (SdkBodyResult.ok result, ups) => (result, ups)
  | (SdkBodyResult.threw m st, ups) =>
    ({ success := false, actions := st.actions,
       message := "Failed to execute task: " ++ m, completed := false }, ups)

/-- `const maxSteps = options.maxSteps || 20` in `prepareAgent`
(v3AgentHandler.ts line 65): `none` models an absent field and `some 0` the
falsy explicit zero. -/
def prepareAgentMaxSteps (maxSteps : Option Nat) : Nat :=
  match maxSteps with
  | some n => if n = 0 then 20 else n
  | none => 20

/-- Modelled from the spec: the AI SDK's `stepCountIs(maxSteps)` stop
condition (the `ai` package is an external collaborator); per the spec the
loop "runs until either `close` is called or a configured maximum step
count is reached", i.e. it stops once the step count reaches `maxSteps`.
A step is represented by the list of its tool-call names. -/
def stepCountIs (maxSteps : Nat) (steps : List (List String)) : Bool :=
  decide (maxSteps ≤ steps.length)

/-- `V3AgentHandler.handleStop` (v3AgentHandler.ts lines 739-748): stop as
soon as the last step's tool calls include `close`, otherwise defer to
`stepCountIs(maxSteps)`. -/
def handleStop (steps : List (List String)) (maxSteps : Nat) : Bool :=
  match steps.getLast? with
  | some lastCalls =>
    if lastCalls.contains "close" then true else stepCountIs maxSteps steps
  | none => stepCountIs maxSteps steps

/-- An entry of a recorded replay script; its contents are opaque to the
orchestrator code under study. -/
structure AgentReplayStep where
  kind : String
  deriving Repr, DecidableEq

/-- The cache context returned by `agentCache.prepareContext`; opaque to
the orchestrator beyond being present or absent. -/
structure AgentCacheContext where
  fingerprint : String
  deriving Repr, DecidableEq

/-- Outcome of the handler (or API-client) execution inside the
orchestrator's `try`: a returned `AgentResult`, or a thrown error. -/
inductive HandlerOutcome
  | ok (result : AgentResult)
  | threw (message : String)
  deriving Repr, DecidableEq

/-- Scripted collaborators for one non-streaming `agent().execute()` call
(CodeAssistClient.ts lines 2278-2328): what `prepareAgentExecution`'s
cache preparation yields, what `agentCache.tryReplay` would return, how the
handler run ends, and what `endAgentReplayRecording` returns. -/
structure AgentRunEnv where
  cacheContext : Option AgentCacheContext
  replayResult : Option AgentResult := none
  handlerOutcome : HandlerOutcome := HandlerOutcome.ok
    { success := false, message := "", actions := [], completed := false }
  handlerLlmCalls : Nat := 0
  recordedSteps : List AgentReplayStep := []
  deriving Repr, DecidableEq

/-- The observable effects of one non-streaming `agent().execute()` call:
whether `tryReplay` ran, whether a replay recording was begun, whether the
handler (the LLM-driving loop) was entered and how many LLM calls it made,
every `agentCache.store` invocation with its arguments, and the call's own
outcome. -/
structure AgentExecuteEffects where
  tryReplayCalled : Bool
  recordingBegan : Bool
  handlerInvoked : Bool
  llmCalls : Nat
  storeCalls : List (AgentCacheContext × List AgentReplayStep × AgentResult)
  outcome : HandlerOutcome
  deriving Repr, DecidableEq

/-- The post-replay part of the orchestrator body (CodeAssistClient.ts
lines 2293-2327): begin recording iff a cache context exists, run the
handler, end the recording, and call `agentCache.store` exactly when
`cacheContext && result.success && agentSteps.length > 0`; a thrown error
discards the recording and propagates. -/
def agentExecuteRunBody (env : AgentRunEnv) : AgentExecuteEffects :=
  let recording := env.cacheContext.isSome
  match env.handlerOutcome with
  | HandlerOutcome.threw m =>
    { tryReplayCalled := env.cacheContext.isSome, recordingBegan := recording,
      handlerInvoked := true, llmCalls := env.handlerLlmCalls,
      storeCalls := [], outcome := HandlerOutcome.threw m }
  | HandlerOutcome.ok result =>
    let agentSteps := if recording then env.recordedSteps else []
    let stores :=
      match env.cacheContext with
      | some ctx =>
        if result.success = true ∧ agentSteps ≠ [] then [(ctx, agentSteps, result)]
        else []
      | none => []
    { tryReplayCalled := env.cacheContext.isSome, recordingBegan := recording,
      handlerInvoked := true, llmCalls := env.handlerLlmCalls,
      storeCalls := stores, outcome := HandlerOutcome.ok result }

/-- The non-streaming `agent().execute()` body (CodeAssistClient.ts lines
2278-2328; the CUA path at lines 2178-2229 has the identical structure):
when a cache context exists, `tryReplay` is consulted first and a hit is
returned immediately — before any recording begins and before the handler
(and hence any LLM call) runs. -/
def agentExecuteNonStreaming (env : AgentRunEnv) : AgentExecuteEffects :=
  match env.cacheContext, env.replayResult with
  | some _, some replayed =>
    { tryReplayCalled := true, recordingBegan := false, handlerInvoked := false,
      llmCalls := 0, storeCalls := [], outcome := HandlerOutcome.ok replayed }
  | some _, none => agentExecuteRunBody env
  | none, _ => agentExecuteRunBody env

/-- Outcome of one attempt inside `CodeAssistClient.createChatCompletion`
(CodeAssistClient.ts lines 269-499): the request round-trip succeeds (with
the value the call would return), or a response schema was requested and
`JSON.parse` of the content throws, or the transport (or anything else in
the `try`) throws. -/
inductive AttemptOutcome
  | requestOk (resp : String)
  | malformedJson
  | transportError (msg : String)
  deriving Repr, DecidableEq

/-- A `createChatCompletion` call either returns a value or throws a
`StagehandError` carrying the given message. -/
inductive CCResult
  | ok (resp : String)
  | threw (message : String)
  deriving Repr, DecidableEq

/-- The observable outcome of a `createChatCompletion` call: the returned
value or the thrown `StagehandError` message, the number of request
attempts made, and the `setTimeout` delays (in ms) taken between attempts. -/
structure CCRun where
  result : CCResult
  attempts : Nat
  delays : List Nat
  deriving Repr, DecidableEq

/-- `createChatCompletion`'s retry structure, recursing on the `retries`
budget: a malformed-JSON failure with budget left retries immediately
(lines 441-447, no delay); a transport failure with budget left sleeps
`1000 * (4 - retries)` ms and retries (lines 478-492); with the budget
exhausted either failure throws a `StagehandError` (lines 448-450 and
494-497). -/
def createChatCompletionAux (outcome : Nat → AttemptOutcome) :
    Nat → Nat → CCRun
  | 0, idx =>
    match outcome idx with
    | AttemptOutcome.requestOk resp => { result := CCResult.ok resp, attempts := 1, delays := [] }
    | AttemptOutcome.malformedJson =>
      { result := CCResult.threw "Failed to parse JSON response", attempts := 1, delays := [] }
    | AttemptOutcome.transportError msg =>
      { result := CCResult.threw ("Code Assist API request failed: " ++ msg),
        attempts := 1, delays := [] }
  | r + 1, idx =>
    match outcome idx with
    | AttemptOutcome.requestOk resp => { result := CCResult.ok resp, attempts := 1, delays := [] }
    | AttemptOutcome.malformedJson =>
      let rest := createChatCompletionAux outcome r (idx + 1)
      { result := rest.result, attempts := rest.attempts + 1, delays := rest.delays }
    | AttemptOutcome.transportError _ =>
      let rest := createChatCompletionAux outcome r (idx + 1)
      { result := rest.result, attempts := rest.attempts + 1,
        delays := 1000 * (4 - (r + 1)) :: rest.delays }

/-- `createChatCompletion` with its default retry budget (`retries = 3`). -/
def createChatCompletionRun (outcome : Nat → AttemptOutcome) : CCRun :=
  createChatCompletionAux outcome 3 0

/-- A step of the scripted OAuth run at which the loop takes a full
iteration and proceeds: no pause rejection, a first choice present, at
least one tool call, and no `close` among them. -/
def goodStep (s : ScriptedStep) : Prop :=
  s.pauseRejects = none ∧ s.hasChoice = true ∧ s.toolCalls ≠ [] ∧
    ∀ tc ∈ s.toolCalls, tc.name ≠ "close"

/-- A step of the scripted OAuth run whose tool calls include the reserved
`close` tool and which the loop reaches and executes. -/
def closeStep (s : ScriptedStep) : Prop :=
  s.pauseRejects = none ∧ s.hasChoice = true ∧
    ∃ tc ∈ s.toolCalls, tc.name = "close"

instance (s : ScriptedStep) : Decidable (goodStep s) := by
  unfold goodStep; infer_instance

instance (s : ScriptedStep) : Decidable (closeStep s) := by
  unfold closeStep; infer_instance

theorem processToolCalls_completed_of_no_close
    (textContent : String) (stepNumber : Nat) :
    ∀ (calls : List ScriptedToolCall) (st : AgentState),
      (∀ tc ∈ calls, tc.name ≠ "close") →
      (processToolCalls textContent stepNumber calls st).1.completed = st.completed
  | [], st, _ => rfl
  | tc :: rest, st, h => by
    have hname : tc.name ≠ "close" := h tc (List.mem_cons_self tc rest)
    have hrest : ∀ tc2 ∈ rest, tc2.name ≠ "close" :=
      fun tc2 hm => h tc2 (List.mem_cons_of_mem tc hm)
    cases hexec : tc.exec with
    | missing =>
      simp only [processToolCalls, if_neg hname, hexec]
      exact processToolCalls_completed_of_no_close textContent stepNumber rest st hrest
    | throws msg =>
      simp only [processToolCalls, if_neg hname, hexec]
      exact processToolCalls_completed_of_no_close textContent stepNumber rest st hrest
    | ok resultJson urlAfter =>
      simp only [processToolCalls, if_neg hname, hexec]
      exact processToolCalls_completed_of_no_close textContent stepNumber rest _ hrest

theorem processToolCalls_completed_of_mem_close
    (textContent : String) (stepNumber : Nat) :
    ∀ (calls : List ScriptedToolCall) (st : AgentState),
      (∃ tc ∈ calls, tc.name = "close") →
      (processToolCalls textContent stepNumber calls st).1.completed = true
  | [], _, h => by simp at h
  | tc :: rest, st, h => by
    by_cases hname : tc.name = "close"
    · simp only [processToolCalls, if_pos hname]
      by_cases htc : tc.taskComplete <;> simp [htc]
    · have hrest : ∃ tc2 ∈ rest, tc2.name = "close" := by
        rcases h with ⟨tc0, hmem, hname0⟩
        rcases List.mem_cons.mp hmem with heq | hmem2
        · exact absurd (heq ▸ hname0) hname
        · exact ⟨tc0, hmem2, hname0⟩
      cases hexec : tc.exec with
      | missing =>
        simp only [processToolCalls, if_neg hname, hexec]
        exact processToolCalls_completed_of_mem_close textContent stepNumber rest st hrest
      | throws msg =>
        simp only [processToolCalls, if_neg hname, hexec]
        exact processToolCalls_completed_of_mem_close textContent stepNumber rest st hrest
      | ok resultJson urlAfter =>
        simp only [processToolCalls, if_neg hname, hexec]
        exact processToolCalls_completed_of_mem_close textContent stepNumber rest _ hrest

theorem oauthStepBody_llmCalls (s : ScriptedStep) (stepNumber : Nat)
    (st : AgentState) (tr : OAuthTrace) :
    (oauthStepBody s stepNumber st tr).1.2.llmCalls = tr.llmCalls + 1 := by
  simp only [oauthStepBody]
  by_cases h1 : s.hasChoice = false
  · simp [h1]
  · simp only [if_neg h1]
    by_cases h2 : s.toolCalls.isEmpty <;> simp [h2]

theorem oauthStepBody_completed_of_no_close (s : ScriptedStep)
    (stepNumber : Nat) (st : AgentState) (tr : OAuthTrace)
    (h : ∀ tc ∈ s.toolCalls, tc.name ≠ "close") :
    (oauthStepBody s stepNumber st tr).1.1.completed = st.completed := by
  simp only [oauthStepBody]
  by_cases h1 : s.hasChoice = false
  · simp [h1]
  · simp only [if_neg h1]
    cases h2 : s.toolCalls.isEmpty
    · simp only [Bool.false_eq_true, if_false]
      have := processToolCalls_completed_of_no_close s.text stepNumber s.toolCalls
        (if s.text ≠ "" then
          { st with collectedReasoning := st.collectedReasoning ++ [s.text] }
         else st) h
      rw [this]
      by_cases h3 : s.text = "" <;> simp [h3]
    · simp only [if_true]
      by_cases h3 : s.text = "" <;> simp [h3]

theorem oauthStepBody_goodStep (s : ScriptedStep) (stepNumber : Nat)
    (st : AgentState) (tr : OAuthTrace) (hg : goodStep s)
    (hc : st.completed = false) :
    (oauthStepBody s stepNumber st tr).2 = true ∧
      (oauthStepBody s stepNumber st tr).1.1.completed = false := by
  obtain ⟨-, h2, h3, h4⟩ := hg
  have hcomp := oauthStepBody_completed_of_no_close s stepNumber st tr h4
  rw [hc] at hcomp
  refine ⟨?_, hcomp⟩
  have h1 : ¬s.hasChoice = false := by simp [h2]
  have hne : s.toolCalls.isEmpty = false := List.isEmpty_eq_false.mpr h3
  simp only [oauthStepBody, if_neg h1, hne, Bool.false_eq_true, if_false] at hcomp ⊢
  simp only [ne_eq, ite_not] at hcomp ⊢
  simp [hcomp]

theorem oauthStepBody_closeStep (s : ScriptedStep) (stepNumber : Nat)
    (st : AgentState) (tr : OAuthTrace) (hg : closeStep s) :
    (oauthStepBody s stepNumber st tr).1.1.completed = true ∧
      (oauthStepBody s stepNumber st tr).2 = false := by
  obtain ⟨-, h2, hmem⟩ := hg
  have h1 : ¬s.hasChoice = false := by simp [h2]
  have hne : s.toolCalls.isEmpty = false := by
    rcases hmem with ⟨tc, htc, -⟩
    exact List.isEmpty_eq_false.mpr (List.ne_nil_of_mem htc)
  have hp := processToolCalls_completed_of_mem_close s.text stepNumber s.toolCalls
    (if s.text ≠ "" then
      { st with collectedReasoning := st.collectedReasoning ++ [s.text] }
     else st) hmem
  constructor <;>
    simp only [oauthStepBody, if_neg h1, hne, Bool.false_eq_true, if_false] <;>
    simp only [ne_eq, ite_not] at hp ⊢ <;>
    simp [hp]

theorem oauthLoop_llmCalls_le (script : Nat → ScriptedStep) :
    ∀ (fuel idx stepNumber : Nat) (st : AgentState) (tr : OAuthTrace),
      (oauthLoop script fuel idx stepNumber st tr).2.llmCalls ≤ tr.llmCalls + fuel := by
  intro fuel
  induction fuel with
  | zero => intro idx sn st tr; simp [oauthLoop]
  | succ fuel ih =>
    intro idx sn st tr
    by_cases hc : st.completed
    · simp [oauthLoop, hc]
    · simp only [oauthLoop, if_neg hc]
      cases hp : (script idx).pauseRejects with
      | some m => simp
      | none =>
        have h2 := oauthStepBody_llmCalls (script idx) (sn + 1) st tr
        cases hr : (oauthStepBody (script idx) (sn + 1) st tr).2 with
        | true =>
          have h1 := ih (idx + 1) (sn + 1)
            (oauthStepBody (script idx) (sn + 1) st tr).1.1
            (oauthStepBody (script idx) (sn + 1) st tr).1.2
          simp only [hr, if_true]
          omega
        | false =>
          simp only [hr, Bool.false_eq_true, if_false]
          omega

theorem oauthLoop_completed_of_no_close (script : Nat → ScriptedStep) :
    ∀ (fuel idx stepNumber : Nat) (st : AgentState) (tr : OAuthTrace),
      st.completed = false →
      (∀ j < fuel, ∀ tc ∈ (script (idx + j)).toolCalls, tc.name ≠ "close") →
      (oauthLoop script fuel idx stepNumber st tr).1.completed = false := by
  intro fuel
  induction fuel with
  | zero => intro idx sn st tr hc _; simpa [oauthLoop] using hc
  | succ fuel ih =>
    intro idx sn st tr hc h
    have h0 : ∀ tc ∈ (script idx).toolCalls, tc.name ≠ "close" := by
      have := h 0 (Nat.succ_pos fuel)
      simpa using this
    have hshift : ∀ j < fuel, ∀ tc ∈ (script (idx + 1 + j)).toolCalls, tc.name ≠ "close" := by
      intro j hj
      have e : idx + 1 + j = idx + (j + 1) := by omega
      rw [e]
      exact h (j + 1) (by omega)
    simp only [oauthLoop, if_neg (by simp [hc] : ¬st.completed = true)]
    cases hp : (script idx).pauseRejects with
    | some m => simpa using hc
    | none =>
      simp only
      have hstep := oauthStepBody_completed_of_no_close (script idx) (sn + 1) st tr h0
      rw [hc] at hstep
      by_cases hr : (oauthStepBody (script idx) (sn + 1) st tr).2 = true
      · simp only [hr, if_true]
        exact ih (idx + 1) (sn + 1) _ _ hstep hshift
      · simp only [hr, if_false]
        exact hstep

theorem oauthLoop_completed_of_close (script : Nat → ScriptedStep) :
    ∀ (k fuel idx stepNumber : Nat) (st : AgentState) (tr : OAuthTrace),
      k < fuel →
      (∀ j < k, goodStep (script (idx + j))) →
      closeStep (script (idx + k)) →
      st.completed = false →
      (oauthLoop script fuel idx stepNumber st tr).1.completed = true := by
  intro k
  induction k with
  | zero =>
    intro fuel idx sn st tr hk hgood hclose hc
    cases fuel with
    | zero => omega
    | succ fuel =>
      simp only [Nat.add_zero] at hclose
      obtain ⟨hstep1, hstep2⟩ :=
        oauthStepBody_closeStep (script idx) (sn + 1) st tr hclose
      simp only [oauthLoop, if_neg (by simp [hc] : ¬st.completed = true)]
      rw [hclose.1]
      simp only [hstep2, Bool.false_eq_true, if_false]
      exact hstep1
  | succ k ih =>
    intro fuel idx sn st tr hk hgood hclose hc
    cases fuel with
    | zero => omega
    | succ fuel =>
      have hg0 : goodStep (script idx) := by
        have := hgood 0 (Nat.succ_pos k)
        simpa using this
      have hgshift : ∀ j < k, goodStep (script (idx + 1 + j)) := by
        intro j hj
        have e : idx + 1 + j = idx + (j + 1) := by omega
        rw [e]
        exact hgood (j + 1) (by omega)
      have hcshift : closeStep (script (idx + 1 + k)) := by
        have e : idx + 1 + k = idx + (k + 1) := by omega
        rw [e]
        exact hclose
      simp only [oauthLoop, if_neg (by simp [hc] : ¬st.completed = true)]
      rw [hg0.1]
      simp only
      obtain ⟨hcont, hcomp⟩ := oauthStepBody_goodStep (script idx) (sn + 1) st tr hg0 hc
      simp only [hcont, if_true]
      exact ih fuel (idx + 1) (sn + 1) _ _ (by omega) hgshift hcshift hcomp

theorem oauthLoop_pause_prefix (script : Nat → ScriptedStep) :
    ∀ (k fuel idx stepNumber : Nat) (st : AgentState) (tr : OAuthTrace),
      k < fuel →
      (∀ j < k, goodStep (script (idx + j))) →
      (script (idx + k)).pauseRejects.isSome →
      st.completed = false →
      oauthLoop script fuel idx stepNumber st tr =
        oauthLoop script k idx stepNumber st tr := by
  intro k
  induction k with
  | zero =>
    intro fuel idx sn st tr hk hgood hrej hc
    cases fuel with
    | zero => omega
    | succ fuel =>
      simp only [Nat.add_zero] at hrej
      obtain ⟨m, hm⟩ := Option.isSome_iff_exists.mp hrej
      simp only [oauthLoop, if_neg (by simp [hc] : ¬st.completed = true), hm]
  | succ k ih =>
    intro fuel idx sn st tr hk hgood hrej hc
    cases fuel with
    | zero => omega
    | succ fuel =>
      have hg0 : goodStep (script idx) := by simpa using hgood 0 (Nat.succ_pos k)
      have hgshift : ∀ j < k, goodStep (script (idx + 1 + j)) := by
        intro j hj
        have e : idx + 1 + j = idx + (j + 1) := by omega
        rw [e]; exact hgood (j + 1) (by omega)
      have hrshift : (script (idx + 1 + k)).pauseRejects.isSome := by
        have e : idx + 1 + k = idx + (k + 1) := by omega
        rw [e]; exact hrej
      obtain ⟨hcont, hcomp⟩ := oauthStepBody_goodStep (script idx) (sn + 1) st tr hg0 hc
      simp only [oauthLoop, if_neg (by simp [hc] : ¬st.completed = true)]
      rw [hg0.1]
      simp only [hcont, if_true]
      exact ih fuel (idx + 1) (sn + 1) _ _ (by omega) hgshift hrshift hcomp

/-- `mapToolResultToActions` output stamped the way both step handlers stamp
appended actions (`action.pageUrl = state.currentPageUrl`,
`action.timestamp = Date.now()` modelled as `0`). -/
def stampActions (url : String) (mapped : List AgentAction) : List AgentAction :=
  mapped.map fun a => { a with pageUrl := url, timestamp := 0 }

/-- The actions an AI-SDK step appends: the concatenation, in tool-call
order, of each call's stamped mapped actions (the SDK handler refreshes the
page URL only after the whole tool-call loop, so every call stamps the same
URL). -/
def stepProducedActions (url : String) : List SdkToolCall → List AgentAction
  | [] => []
  | tc :: rest => stampActions url tc.mapped ++ stepProducedActions url rest

theorem stepHandlerToolCall_actions (text : String) (st : AgentState)
    (tc : SdkToolCall) :
    (stepHandlerToolCall text st tc).actions =
      st.actions ++ stampActions st.currentPageUrl tc.mapped ∧
    (stepHandlerToolCall text st tc).currentPageUrl = st.currentPageUrl := by
  simp only [stepHandlerToolCall, stampActions]
  by_cases h1 : text = "" <;> by_cases h2 : tc.toolName = "close" <;>
    by_cases h3 : tc.taskComplete = true <;> simp [h1, h2, h3]

theorem stepHandlerToolCall_completed_of_close (text : String)
    (st : AgentState) (tc : SdkToolCall) (h : tc.toolName = "close") :
    (stepHandlerToolCall text st tc).completed = true := by
  simp only [stepHandlerToolCall]
  by_cases h1 : text = "" <;> by_cases h3 : tc.taskComplete = true <;>
    simp [h1, h, h3]

theorem stepHandlerToolCall_completed_mono (text : String) (st : AgentState)
    (tc : SdkToolCall) (h : st.completed = true) :
    (stepHandlerToolCall text st tc).completed = true := by
  simp only [stepHandlerToolCall]
  by_cases h1 : text = "" <;> by_cases h2 : tc.toolName = "close" <;>
    by_cases h3 : tc.taskComplete = true <;> simp [h1, h2, h3, h]

theorem sdkFoldl_completed_mono (text : String) :
    ∀ (calls : List SdkToolCall) (st : AgentState), st.completed = true →
      (List.foldl (stepHandlerToolCall text) st calls).completed = true
  | [], _, h => h
  | tc :: rest, st, h =>
    sdkFoldl_completed_mono text rest (stepHandlerToolCall text st tc)
      (stepHandlerToolCall_completed_mono text st tc h)

theorem sdkFoldl_completed_of_mem_close (text : String) :
    ∀ (calls : List SdkToolCall) (st : AgentState),
      (∃ tc ∈ calls, tc.toolName = "close") →
      (List.foldl (stepHandlerToolCall text) st calls).completed = true
  | [], _, h => by simp at h
  | tc :: rest, st, h => by
    by_cases hname : tc.toolName = "close"
    · exact sdkFoldl_completed_mono text rest _
        (stepHandlerToolCall_completed_of_close text st tc hname)
    · have hrest : ∃ tc2 ∈ rest, tc2.toolName = "close" := by
        rcases h with ⟨tc0, hmem, hname0⟩
        rcases List.mem_cons.mp hmem with heq | hmem2
        · exact absurd (heq ▸ hname0) hname
        · exact ⟨tc0, hmem2, hname0⟩
      exact sdkFoldl_completed_of_mem_close text rest _ hrest

theorem sdkFoldl_actions (text : String) :
    ∀ (calls : List SdkToolCall) (st : AgentState),
      (List.foldl (stepHandlerToolCall text) st calls).actions =
        st.actions ++ stepProducedActions st.currentPageUrl calls ∧
      (List.foldl (stepHandlerToolCall text) st calls).currentPageUrl =
        st.currentPageUrl
  | [], st => by simp [stepProducedActions]
  | tc :: rest, st => by
    obtain ⟨ha, hu⟩ := stepHandlerToolCall_actions text st tc
    obtain ⟨ha2, hu2⟩ := sdkFoldl_actions text rest (stepHandlerToolCall text st tc)
    constructor
    · simp only [List.foldl_cons, ha2, ha, hu, stepProducedActions,
        List.append_assoc]
    · simp only [List.foldl_cons, hu2, hu]

theorem stepProducedActions_length (url : String) :
    ∀ (calls : List SdkToolCall),
      (∀ tc ∈ calls, tc.mapped.length = 1) →
      (stepProducedActions url calls).length = calls.length
  | [], _ => rfl
  | tc :: rest, h => by
    have h0 : tc.mapped.length = 1 := h tc (List.mem_cons_self tc rest)
    have hrest := stepProducedActions_length url rest
      (fun tc2 hm => h tc2 (List.mem_cons_of_mem tc hm))
    simp only [stepProducedActions, stampActions, List.length_append,
      List.length_map, h0, hrest, List.length_cons]
    omega

theorem jsSliceNeg_append (xs ys : List AgentAction) (h : ys ≠ []) :
    jsSliceNeg (xs ++ ys) ys.length = ys := by
  have hl : ¬ys.length = 0 := by simpa using h
  simp only [jsSliceNeg, if_neg hl, List.length_append]
  have e : xs.length + ys.length - ys.length = xs.length := by omega
  rw [e, List.drop_left]

theorem runStepHandler_reject_split :
    ∀ (pre : List SdkStepEvent) (ev : SdkStepEvent) (rest : List SdkStepEvent)
      (st : AgentState) (stepNumber : Nat) (m : String),
      (∀ e ∈ pre, e.pauseRejects = none) → ev.pauseRejects = some m →
      (runStepHandler (pre ++ ev :: rest) st stepNumber).1 =
        (runStepHandler pre st stepNumber).1 ∧
      (runStepHandler (pre ++ ev :: rest) st stepNumber).2.2 = some m
  | [], ev, rest, st, sn, m, _, hev => by
    simp [List.nil_append, runStepHandler, hev]
  | e :: pre, ev, rest, st, sn, m, hpre, hev => by
    have he : e.pauseRejects = none := hpre e (List.mem_cons_self e pre)
    have hpre2 : ∀ x ∈ pre, x.pauseRejects = none :=
      fun x hx => hpre x (List.mem_cons_of_mem e hx)
    simp only [List.cons_append, runStepHandler, he]
    cases h2 : e.toolCalls.isEmpty
    · simp only [Bool.false_eq_true, if_false]
      exact runStepHandler_reject_split pre ev rest _ (sn + 1) m hpre2 hev
    · simp only [if_true]
      exact runStepHandler_reject_split pre ev rest st (sn + 1) m hpre2 hev

/-- Claim C2: for every non-streaming `agent().execute()` invocation where
the cache context is non-null and `agentCache.tryReplay` returns a non-null
`AgentResult`, `execute()` returns that result immediately: no replay
recording is begun, the agent handler's loop is never entered, and no LLM
call occurs. -/
theorem c2_replay_short_circuits (env : AgentRunEnv) (ctx : AgentCacheContext)
    (r : AgentResult) (hc : env.cacheContext = some ctx)
    (hr : env.replayResult = some r) :
    agentExecuteNonStreaming env =
      { tryReplayCalled := true, recordingBegan := false,
        handlerInvoked := false, llmCalls := 0, storeCalls := [],
        outcome := HandlerOutcome.ok r } := by
  simp [agentExecuteNonStreaming, hc, hr]

/-- A non-streaming `agent().execute()` environment with a cache hit: the
cached replay result differs from what a live run would produce, making the
short-circuit observable. -/
def c2Env : AgentRunEnv :=
  { cacheContext := some { fingerprint := "fp" },
    replayResult := some
      { success := true, message := "cached", actions := [{ type := "act" }],
        completed := true },
    handlerOutcome := HandlerOutcome.ok
      { success := true, message := "live", actions := [], completed := true },
    handlerLlmCalls := 7,
    recordedSteps := [{ kind := "act" }] }

/-- Witness for C2 at a concrete environment. -/
theorem c2_replay_short_circuits_witness :
    agentExecuteNonStreaming c2Env =
      { tryReplayCalled := true, recordingBegan := false,
        handlerInvoked := false, llmCalls := 0, storeCalls := [],
        outcome := HandlerOutcome.ok
          { success := true, message := "cached",
            actions := [{ type := "act" }], completed := true } } :=
  c2_replay_short_circuits c2Env { fingerprint := "fp" }
    { success := true, message := "cached", actions := [{ type := "act" }],
      completed := true } rfl rfl

/-- Claim C3: for every `V3AgentHandler.execute` invocation in which
preparation succeeds, any error thrown during the run is caught inside
`execute` and converted into an `AgentResult` with `success = false`,
`completed = false`, message `"Failed to execute task: "` followed by the
error reason, and the actions accumulated before the error; no exception
escapes `execute` (`executeSdk` is total). -/
theorem c3_execute_catch (inp : SdkRunInput) (m : String) (st : AgentState)
    (h : (executeSdkBody inp).1 = SdkBodyResult.threw m st) :
    (executeSdk inp).1 =
      { success := false, actions := st.actions,
        message := "Failed to execute task: " ++ m, completed := false } := by
  rcases hb : executeSdkBody inp with ⟨res, ups⟩
  rw [hb] at h
  simp only at h
  subst h
  simp [executeSdk, hb]

/-- Witness for C3: a provider failure after zero steps is converted into a
structured failure result. -/
theorem c3_execute_catch_witness :
    (executeSdk { events := [], providerFailure := some "network down",
                  finalText := "", initialPageUrl := "https://u" }).1 =
      { success := false, actions := [],
        message := "Failed to execute task: network down",
        completed := false } :=
  c3_execute_catch
    { events := [], providerFailure := some "network down",
      finalText := "", initialPageUrl := "https://u" }
    "network down" (initAgentState "https://u") rfl

/-- The `toolResults` entry the OAuth tool loop records for a failing tool
call: the unknown-tool error payload, or the thrown error's message payload
(for a successful call, its serialized result). -/
def toolFailurePayload (tc : ScriptedToolCall) : String :=
  match tc.exec with
  | ToolExec.missing => jsonError ("Unknown tool: " ++ tc.name)
  | ToolExec.throws msg => jsonError msg
  | ToolExec.ok resultJson _ => resultJson

/-- Claim C7: a tool call whose name is unknown or whose execution throws
contributes an error payload as that call's tool result, appends no
`AgentAction` (the state is exactly the state in which the remaining calls
of the same step are processed), emits no step update of its own, and never
aborts the run. -/
theorem c7_tool_failure_recovered (textContent : String) (stepNumber : Nat)
    (tc : ScriptedToolCall) (rest : List ScriptedToolCall) (st : AgentState)
    (hname : tc.name ≠ "close")
    (hfail : tc.exec = ToolExec.missing ∨ ∃ m, tc.exec = ToolExec.throws m) :
    (processToolCalls textContent stepNumber (tc :: rest) st).1 =
      (processToolCalls textContent stepNumber rest st).1 ∧
    (processToolCalls textContent stepNumber (tc :: rest) st).2.1 =
      toolFailurePayload tc ::
        (processToolCalls textContent stepNumber rest st).2.1 ∧
    (processToolCalls textContent stepNumber (tc :: rest) st).2.2 =
      (processToolCalls textContent stepNumber rest st).2.2 := by
  rcases hfail with h | ⟨m, h⟩ <;>
    simp [processToolCalls, if_neg hname, h, toolFailurePayload]

/-- Witness for C7: an unknown tool followed by a successful tool in the
same step. -/
theorem c7_tool_failure_recovered_witness :
    (processToolCalls "t" 1
        [{ name := "bogus", exec := ToolExec.missing },
         { name := "act", mapped := [{ type := "act" }],
           exec := ToolExec.ok "\"ok\"" "https://next" }]
        (initAgentState "https://s")).1 =
      (processToolCalls "t" 1
        [{ name := "act", mapped := [{ type := "act" }],
           exec := ToolExec.ok "\"ok\"" "https://next" }]
        (initAgentState "https://s")).1 ∧
    (processToolCalls "t" 1
        [{ name := "bogus", exec := ToolExec.missing },
         { name := "act", mapped := [{ type := "act" }],
           exec := ToolExec.ok "\"ok\"" "https://next" }]
        (initAgentState "https://s")).2.1 =
      toolFailurePayload { name := "bogus", exec := ToolExec.missing } ::
        (processToolCalls "t" 1
          [{ name := "act", mapped := [{ type := "act" }],
             exec := ToolExec.ok "\"ok\"" "https://next" }]
          (initAgentState "https://s")).2.1 ∧
    (processToolCalls "t" 1
        [{ name := "bogus", exec := ToolExec.missing },
         { name := "act", mapped := [{ type := "act" }],
           exec := ToolExec.ok "\"ok\"" "https://next" }]
        (initAgentState "https://s")).2.2 =
      (processToolCalls "t" 1
        [{ name := "act", mapped := [{ type := "act" }],
           exec := ToolExec.ok "\"ok\"" "https://next" }]
        (initAgentState "https://s")).2.2 :=
  c7_tool_failure_recovered "t" 1
    { name := "bogus", exec := ToolExec.missing }
    [{ name := "act", mapped := [{ type := "act" }],
       exec := ToolExec.ok "\"ok\"" "https://next" }]
    (initAgentState "https://s") (by decide) (Or.inl rfl)

/-- Claim C10: `maxSteps: 0` (a falsy value, like an absent field) yields
the default ceiling of 20; no option value can request a zero-step run. -/
theorem c10_zero_max_steps_default (o : Option Nat) :
    prepareAgentMaxSteps (some 0) = 20 ∧ prepareAgentMaxSteps none = 20 ∧
    0 < prepareAgentMaxSteps o := by
  refine ⟨rfl, rfl, ?_⟩
  rcases o with _ | n
  · decide
  · by_cases h : n = 0 <;> simp [prepareAgentMaxSteps, h]
    omega

/-- An OAuth run whose first step calls the reserved `close` tool with
`taskComplete:false`. -/
def c1Script : Nat → ScriptedStep := fun _ =>
  { toolCalls := [{ name := "close", taskComplete := false,
                    mapped := [{ type := "close" }] }] }

/-- Claim C1 counterexample: a run whose only step calls `close` with
`taskComplete:false` returns `success = true` (the code sets
`success := state.completed`, and `close` always sets `completed`), while
the claim demands `success = false`; only the final message reflects the
failed task. -/
theorem c1_counterexample :
    (c1Script 0).toolCalls.map (fun tc => (tc.name, tc.taskComplete)) =
      [("close", false)] ∧
    (executeWithCodeAssist c1Script 20 "https://start").result.success = true ∧
    (executeWithCodeAssist c1Script 20 "https://start").result.completed = true ∧
    (executeWithCodeAssist c1Script 20 "https://start").result.message =
      "Task could not be completed" := by
  refine ⟨rfl, rfl, rfl, rfl⟩

/-- Claim C1 (amended): for every run in which some step's tool calls
include the reserved `close` tool, the returned `AgentResult` has
`completed = true` and `success = true` regardless of the `taskComplete`
argument (`taskComplete` only shapes the final message).  Stated for the
OAuth loop (run level) and for the AI-SDK step handler plus
`consolidateMetricsAndResult`. -/
theorem c1_close_completes_run (script : Nat → ScriptedStep)
    (maxSteps k : Nat) (initialPageUrl : String)
    (hk : k < maxSteps)
    (hgood : ∀ j < k, goodStep (script j))
    (hclose : closeStep (script k))
    (ev : SdkStepEvent) (st : AgentState) (resultText : String)
    (hev : ∃ tc ∈ ev.toolCalls, tc.toolName = "close") :
    (executeWithCodeAssist script maxSteps initialPageUrl).result.completed = true ∧
    (executeWithCodeAssist script maxSteps initialPageUrl).result.success = true ∧
    (consolidateMetricsAndResult
        (List.foldl (stepHandlerToolCall ev.text) st ev.toolCalls)
        resultText).completed = true ∧
    (consolidateMetricsAndResult
        (List.foldl (stepHandlerToolCall ev.text) st ev.toolCalls)
        resultText).success = true := by
  have hloop : (oauthLoop script maxSteps 0 0 (initAgentState initialPageUrl)
      { updates := [], llmCalls := 0, toolResults := [] }).1.completed = true := by
    apply oauthLoop_completed_of_close script k maxSteps 0 0 _ _ hk
    · intro j hj; simpa using hgood j hj
    · simpa using hclose
    · rfl
  have hsdk := sdkFoldl_completed_of_mem_close ev.text ev.toolCalls st hev
  refine ⟨?_, ?_, ?_, ?_⟩ <;>
    simp only [executeWithCodeAssist, consolidateMetricsAndResult] <;>
    first
    | exact hloop
    | exact hsdk

/-- An OAuth run whose first step calls `close` with `taskComplete:true`,
and an AI-SDK step event calling `close`. -/
def c1wScript : Nat → ScriptedStep := fun _ =>
  { toolCalls := [{ name := "close", taskComplete := true,
                    closeReasoning := some "done",
                    mapped := [{ type := "close" }] }] }

/-- The AI-SDK step event used in the C1 witness. -/
def c1wEvent : SdkStepEvent :=
  { text := "t", toolCalls := [{ toolName := "close", taskComplete := true,
                                 mapped := [{ type := "close" }] }] }

/-- Witness for the amended C1 at concrete inputs. -/
theorem c1_close_completes_run_witness :
    (executeWithCodeAssist c1wScript 5 "https://a").result.completed = true ∧
    (executeWithCodeAssist c1wScript 5 "https://a").result.success = true ∧
    (consolidateMetricsAndResult
        (List.foldl (stepHandlerToolCall c1wEvent.text)
          (initAgentState "https://b") c1wEvent.toolCalls) "txt").completed = true ∧
    (consolidateMetricsAndResult
        (List.foldl (stepHandlerToolCall c1wEvent.text)
          (initAgentState "https://b") c1wEvent.toolCalls) "txt").success = true :=
  c1_close_completes_run c1wScript 5 0 "https://a" (by decide) (by decide)
    (by decide) c1wEvent (initAgentState "https://b") "txt" (by decide)

theorem stepHandlerToolCall_completed_of_no_close (text : String)
    (st : AgentState) (tc : SdkToolCall) (h : tc.toolName ≠ "close") :
    (stepHandlerToolCall text st tc).completed = st.completed := by
  simp only [stepHandlerToolCall]
  by_cases h1 : text = "" <;> simp [h1, h]

theorem sdkFoldl_completed_of_no_close (text : String) :
    ∀ (calls : List SdkToolCall) (st : AgentState),
      (∀ tc ∈ calls, tc.toolName ≠ "close") →
      (List.foldl (stepHandlerToolCall text) st calls).completed = st.completed
  | [], _, _ => rfl
  | tc :: rest, st, h => by
    have h0 := stepHandlerToolCall_completed_of_no_close text st tc
      (h tc (List.mem_cons_self tc rest))
    have hrest := sdkFoldl_completed_of_no_close text rest
      (stepHandlerToolCall text st tc)
      (fun tc2 hm => h tc2 (List.mem_cons_of_mem tc hm))
    simp only [List.foldl_cons, hrest, h0]

theorem runStepHandler_completed_of_no_close :
    ∀ (events : List SdkStepEvent) (st : AgentState) (stepNumber : Nat),
      (∀ ev ∈ events, ∀ tc ∈ ev.toolCalls, tc.toolName ≠ "close") →
      (runStepHandler events st stepNumber).1.completed = st.completed
  | [], _, _, _ => rfl
  | ev :: rest, st, sn, h => by
    have h0 : ∀ tc ∈ ev.toolCalls, tc.toolName ≠ "close" :=
      h ev (List.mem_cons_self ev rest)
    have hrest : ∀ e ∈ rest, ∀ tc ∈ e.toolCalls, tc.toolName ≠ "close" :=
      fun e he => h e (List.mem_cons_of_mem ev he)
    simp only [runStepHandler]
    cases hp : ev.pauseRejects with
    | some m => rfl
    | none =>
      cases h2 : ev.toolCalls.isEmpty
      · simp only [Bool.false_eq_true, if_false]
        have hfold := sdkFoldl_completed_of_no_close ev.text ev.toolCalls st h0
        exact (runStepHandler_completed_of_no_close rest _ (sn + 1) hrest).trans hfold
      · simp only [if_true]
        exact runStepHandler_completed_of_no_close rest st (sn + 1) hrest

/-- On the AI-SDK path, a run in which no step's tool calls include the
reserved `close` tool ends with `completed = false`: the handler only sets
`state.completed` in its `close` branch, `consolidateMetricsAndResult`
copies `state.completed`, and the `catch` branch returns
`completed := false` outright. -/
theorem executeSdk_completed_of_no_close (inp : SdkRunInput)
    (h : ∀ ev ∈ inp.events, ∀ tc ∈ ev.toolCalls, tc.toolName ≠ "close") :
    (executeSdk inp).1.completed = false := by
  have hrun : (runStepHandler inp.events
      (initAgentState inp.initialPageUrl) 0).1.completed = false :=
    runStepHandler_completed_of_no_close inp.events
      (initAgentState inp.initialPageUrl) 0 h
  simp only [executeSdk, executeSdkBody]
  cases h22 : (runStepHandler inp.events
      (initAgentState inp.initialPageUrl) 0).2.2 with
  | some m => simp [h22]
  | none =>
    cases hpf : inp.providerFailure with
    | some m => simp [h22, hpf]
    | none => simp [h22, hpf, consolidateMetricsAndResult, hrun]

/-- Claim C4: for every run in which the model never calls `close`, at most
`maxSteps` model-invocation steps are performed and the returned result has
`completed = false` — proved for the OAuth loop (call count and flag), and
for the AI-SDK backend (close-free `executeSdk` runs return
`completed = false`, and `handleStop` stops the SDK generation once the
step count reaches `maxSteps`); the ceiling defaults to 20 when the caller
does not specify `maxSteps`. -/
theorem c4_max_steps_bound (script : Nat → ScriptedStep) (maxSteps : Nat)
    (initialPageUrl : String)
    (hnc : ∀ i < maxSteps, ∀ tc ∈ (script i).toolCalls, tc.name ≠ "close")
    (inp : SdkRunInput)
    (hsdknc : ∀ ev ∈ inp.events, ∀ tc ∈ ev.toolCalls, tc.toolName ≠ "close") :
    (executeWithCodeAssist script maxSteps initialPageUrl).llmCalls ≤ maxSteps ∧
    (executeWithCodeAssist script maxSteps initialPageUrl).result.completed = false ∧
    (executeSdk inp).1.completed = false ∧
    prepareAgentMaxSteps none = 20 ∧
    ∀ (steps : List (List String)), maxSteps ≤ steps.length →
      handleStop steps maxSteps = true := by
  have hcalls := oauthLoop_llmCalls_le script maxSteps 0 0
    (initAgentState initialPageUrl) { updates := [], llmCalls := 0, toolResults := [] }
  have hcomp : (oauthLoop script maxSteps 0 0 (initAgentState initialPageUrl)
      { updates := [], llmCalls := 0, toolResults := [] }).1.completed = false := by
    apply oauthLoop_completed_of_no_close script maxSteps 0 0 _ _ rfl
    intro j hj
    simpa using hnc j hj
  refine ⟨?_, ?_, executeSdk_completed_of_no_close inp hsdknc, rfl, ?_⟩
  · simpa [executeWithCodeAssist] using hcalls
  · simpa [executeWithCodeAssist] using hcomp
  · intro steps h
    simp only [handleStop, stepCountIs]
    cases hl : steps.getLast? with
    | none => exact decide_eq_true h
    | some last =>
      by_cases hc2 : last.contains "close" <;> simp [hc2, decide_eq_true h]

/-- An OAuth run that never calls `close`: two tool-calling steps, then
steps with no tool calls. -/
def c4Script : Nat → ScriptedStep := fun n =>
  if n < 2 then
    { text := "thinking",
      toolCalls := [{ name := "act", mapped := [{ type := "act" }],
                      exec := ToolExec.ok "\"done\"" "https://p2" }] }
  else { toolCalls := [] }

/-- A close-free AI-SDK run: one acting step, then the generation finishes
without any `close` call. -/
def c4SdkInput : SdkRunInput :=
  { events := [{ text := "thinking",
                 toolCalls := [{ toolName := "act",
                                 mapped := [{ type := "act" }] }],
                 urlAfterStep := "https://p2" }],
    providerFailure := none, finalText := "ran out of steps",
    initialPageUrl := "https://a" }

/-- Witness for C4 at a concrete close-free run on each backend. -/
theorem c4_max_steps_bound_witness :
    (executeWithCodeAssist c4Script 2 "https://a").llmCalls ≤ 2 ∧
    (executeWithCodeAssist c4Script 2 "https://a").result.completed = false ∧
    (executeSdk c4SdkInput).1.completed = false ∧
    prepareAgentMaxSteps none = 20 ∧
    handleStop [["act"], ["act"]] 2 = true :=
  ⟨(c4_max_steps_bound c4Script 2 "https://a" (by decide) c4SdkInput (by decide)).1,
   (c4_max_steps_bound c4Script 2 "https://a" (by decide) c4SdkInput (by decide)).2.1,
   (c4_max_steps_bound c4Script 2 "https://a" (by decide) c4SdkInput (by decide)).2.2.1,
   (c4_max_steps_bound c4Script 2 "https://a" (by decide) c4SdkInput (by decide)).2.2.2.1,
   (c4_max_steps_bound c4Script 2 "https://a" (by decide) c4SdkInput (by decide)).2.2.2.2
     [["act"], ["act"]] (by decide)⟩

/-- Claim C5: `agentCache.store` is invoked only with a successful result
and a non-empty recorded step sequence — every store call observed during a
non-streaming `agent().execute()` run carries `result.success = true` and
at least one replay step. -/
theorem c5_store_only_success_nonempty (env : AgentRunEnv)
    (entry : AgentCacheContext × List AgentReplayStep × AgentResult)
    (h : entry ∈ (agentExecuteNonStreaming env).storeCalls) :
    entry.2.2.success = true ∧ entry.2.1 ≠ [] := by
  have hbody : ∀ (h2 : entry ∈ (agentExecuteRunBody env).storeCalls),
      entry.2.2.success = true ∧ entry.2.1 ≠ [] := by
    intro h2
    rcases hout : env.handlerOutcome with r | m
    · rw [agentExecuteRunBody, hout] at h2
      simp only at h2
      rcases hcc : env.cacheContext with _ | ctx
      · rw [hcc] at h2; simp at h2
      · rw [hcc] at h2
        simp only [Option.isSome_some, if_true] at h2
        split_ifs at h2 with hcond
        · have he := List.mem_singleton.mp h2
          subst he
          exact ⟨hcond.1, hcond.2⟩
        · simp at h2
    · rw [agentExecuteRunBody, hout] at h2
      simp at h2
  rcases hcc : env.cacheContext with _ | ctx <;>
    rcases hrr : env.replayResult with _ | r <;>
    rw [agentExecuteNonStreaming, hcc, hrr] at h
  · exact hbody h
  · exact hbody h
  · exact hbody h
  · simp at h

/-- A non-streaming run environment whose handler succeeds with one
recorded replay step. -/
def c5Env : AgentRunEnv :=
  { cacheContext := some { fingerprint := "fp" },
    replayResult := none,
    handlerOutcome := HandlerOutcome.ok
      { success := true, message := "ok", actions := [{ type := "act" }],
        completed := true },
    handlerLlmCalls := 2,
    recordedSteps := [{ kind := "act" }] }

/-- The single store call `c5Env` produces. -/
def c5Entry : AgentCacheContext × List AgentReplayStep × AgentResult :=
  ({ fingerprint := "fp" }, [{ kind := "act" }],
   { success := true, message := "ok", actions := [{ type := "act" }],
     completed := true })

/-- Witness for C5: the store call of a successful recorded run carries a
successful result and a non-empty step list. -/
theorem c5_store_only_success_nonempty_witness :
    c5Entry.2.2.success = true ∧ c5Entry.2.1 ≠ [] :=
  c5_store_only_success_nonempty c5Env c5Entry (by decide)

theorem createChatCompletionAux_attempts_le (outcome : Nat → AttemptOutcome) :
    ∀ (r idx : Nat), (createChatCompletionAux outcome r idx).attempts ≤ r + 1
  | 0, idx => by
    cases h : outcome idx <;> simp [createChatCompletionAux, h]
  | r + 1, idx => by
    cases h : outcome idx with
    | requestOk resp => simp [createChatCompletionAux, h]
    | malformedJson =>
      have := createChatCompletionAux_attempts_le outcome r (idx + 1)
      simp only [createChatCompletionAux, h]
      omega
    | transportError msg =>
      have := createChatCompletionAux_attempts_le outcome r (idx + 1)
      simp only [createChatCompletionAux, h]
      omega

theorem createChatCompletionAux_threw_attempts (outcome : Nat → AttemptOutcome) :
    ∀ (r idx : Nat) (m : String),
      (createChatCompletionAux outcome r idx).result = CCResult.threw m →
      (createChatCompletionAux outcome r idx).attempts = r + 1
  | 0, idx, m => by
    cases h : outcome idx <;> simp [createChatCompletionAux, h]
  | r + 1, idx, m => by
    cases h : outcome idx with
    | requestOk resp => simp [createChatCompletionAux, h]
    | malformedJson =>
      intro hres
      simp only [createChatCompletionAux, h] at hres ⊢
      have := createChatCompletionAux_threw_attempts outcome r (idx + 1) m hres
      omega
    | transportError msg =>
      intro hres
      simp only [createChatCompletionAux, h] at hres ⊢
      have := createChatCompletionAux_threw_attempts outcome r (idx + 1) m hres
      omega

theorem createChatCompletionAux_delays (outcome : Nat → AttemptOutcome) :
    ∀ (r idx : Nat), r ≤ 3 →
      ∀ d ∈ (createChatCompletionAux outcome r idx).delays,
        d = 1000 ∨ d = 2000 ∨ d = 3000
  | 0, idx, _ => by
    cases h : outcome idx <;> simp [createChatCompletionAux, h]
  | r + 1, idx, hr => by
    cases h : outcome idx with
    | requestOk resp => simp [createChatCompletionAux, h]
    | malformedJson =>
      simp only [createChatCompletionAux, h]
      exact createChatCompletionAux_delays outcome r (idx + 1) (by omega)
    | transportError msg =>
      simp only [createChatCompletionAux, h]
      intro d hd
      rcases List.mem_cons.mp hd with heq | hd2
      · subst heq; omega
      · exact createChatCompletionAux_delays outcome r (idx + 1) (by omega) d hd2

/-- An attempt script whose first request yields malformed JSON and whose
retry succeeds. -/
def c8Outcome : Nat → AttemptOutcome := fun n =>
  if n = 0 then AttemptOutcome.malformedJson else AttemptOutcome.requestOk "resp"

/-- Claim C8 counterexample: a malformed-JSON failure is retried
immediately — two attempts and an empty delay list — so not every failing
request is retried "with a short delay between attempts" (only the
transport-error path sleeps). -/
theorem c8_counterexample :
    (createChatCompletionRun c8Outcome).result = CCResult.ok "resp" ∧
    (createChatCompletionRun c8Outcome).attempts = 2 ∧
    (createChatCompletionRun c8Outcome).delays = [] := by
  refine ⟨rfl, rfl, rfl⟩

/-- Claim C8 (amended): every failing provider request is retried a bounded
number of times — at most 3 retries (4 attempts) with the default budget —
and a `StagehandError` is thrown only once the budget is exhausted; the
delays taken between attempts are the transport-error backoffs of 1, 2 or
3 seconds, while malformed-JSON retries happen immediately. -/
theorem c8_bounded_retries (outcome : Nat → AttemptOutcome) (m : String) :
    (createChatCompletionRun outcome).attempts ≤ 4 ∧
    ((createChatCompletionRun outcome).result = CCResult.threw m →
      (createChatCompletionRun outcome).attempts = 4) ∧
    ∀ d ∈ (createChatCompletionRun outcome).delays,
      d = 1000 ∨ d = 2000 ∨ d = 3000 := by
  refine ⟨?_, ?_, ?_⟩
  · exact createChatCompletionAux_attempts_le outcome 3 0
  · intro h
    exact createChatCompletionAux_threw_attempts outcome 3 0 m h
  · exact createChatCompletionAux_delays outcome 3 0 (by omega)

/-- An attempt script on which every request fails at the transport. -/
def c8wOutcome : Nat → AttemptOutcome := fun _ =>
  AttemptOutcome.transportError "boom"

/-- Witness for the amended C8: with every attempt failing, exactly 4
attempts are made and the `StagehandError` surfaces. -/
theorem c8_bounded_retries_witness :
    (createChatCompletionRun c8wOutcome).attempts ≤ 4 ∧
    (createChatCompletionRun c8wOutcome).attempts = 4 :=
  ⟨(c8_bounded_retries c8wOutcome "Code Assist API request failed: boom").1,
   (c8_bounded_retries c8wOutcome "Code Assist API request failed: boom").2.1
     (by decide)⟩

/-- An AI-SDK step event whose single tool call maps to two
`AgentAction` records (`mapToolResultToActions` returns "zero or more"
actions per the spec). -/
def c9Event : SdkStepEvent :=
  { text := "looking",
    toolCalls := [{ toolName := "act",
                    mapped := [{ type := "goto" }, { type := "extract" }] }],
    urlAfterStep := "https://after" }

/-- Claim C9 counterexample (spec-modelled `mapToolResultToActions`): a
step with one tool call mapping to two actions appends both actions to the
state, but the step-completed update — built from
`state.actions.slice(-event.toolCalls.length)` — carries only the last one:
an action of this very step is missing from the update. -/
theorem c9_counterexample :
    (runStepHandler [c9Event] (initAgentState "https://s") 0).1.actions =
      [{ type := "goto", pageUrl := "https://s" },
       { type := "extract", pageUrl := "https://s" }] ∧
    (runStepHandler [c9Event] (initAgentState "https://s") 0).2.1.map
        (fun u => (u.completed, u.actions)) =
      [(false, []),
       (true, [{ type := "extract", pageUrl := "https://s" }])] ∧
    [({ type := "extract", pageUrl := "https://s" } : AgentAction)] ≠
      [{ type := "goto", pageUrl := "https://s" },
       { type := "extract", pageUrl := "https://s" }] := by
  refine ⟨rfl, rfl, by decide⟩

/-- Claim C9 (amended): the step-completed update carries the last
`event.toolCalls.length` accumulated actions; when every tool call of the
step maps to exactly one action this is exactly the step's own actions — no
earlier step's action included and none of the step's actions missing. -/
theorem c9_step_update_actions (ev : SdkStepEvent) (st : AgentState)
    (stepNumber : Nat)
    (hrej : ev.pauseRejects = none) (hne : ev.toolCalls ≠ [])
    (hone : ∀ tc ∈ ev.toolCalls, tc.mapped.length = 1) :
    (runStepHandler [ev] st stepNumber).1.actions =
      st.actions ++ stepProducedActions st.currentPageUrl ev.toolCalls ∧
    ∃ u, (runStepHandler [ev] st stepNumber).2.1 =
        [{ stepNumber := stepNumber + 1, actions := [], message := "",
           completed := false, currentUrl := st.currentPageUrl }, u] ∧
      u.completed = true ∧
      u.actions = stepProducedActions st.currentPageUrl ev.toolCalls := by
  have hempty : ev.toolCalls.isEmpty = false := List.isEmpty_eq_false.mpr hne
  obtain ⟨ha, hu⟩ := sdkFoldl_actions ev.text ev.toolCalls st
  have hlen := stepProducedActions_length st.currentPageUrl ev.toolCalls hone
  have hprodne : stepProducedActions st.currentPageUrl ev.toolCalls ≠ [] := by
    intro h0
    rw [h0] at hlen
    exact hne (List.length_eq_zero.mp hlen.symm)
  have hslice : jsSliceNeg
      (st.actions ++ stepProducedActions st.currentPageUrl ev.toolCalls)
      ev.toolCalls.length =
      stepProducedActions st.currentPageUrl ev.toolCalls := by
    rw [← hlen]
    exact jsSliceNeg_append _ _ hprodne
  simp only [runStepHandler, hrej, hempty, Bool.false_eq_true, if_false]
  refine ⟨by simpa using ha, ?_⟩
  refine ⟨_, rfl, rfl, ?_⟩
  simpa [ha] using hslice

/-- An AI-SDK step event each of whose tool calls maps to exactly one
action. -/
def c9wEvent : SdkStepEvent :=
  { text := "r",
    toolCalls := [{ toolName := "goto", mapped := [{ type := "goto" }] },
                  { toolName := "act", mapped := [{ type := "act" }] }],
    urlAfterStep := "https://after" }

/-- Witness for the amended C9 at a concrete two-call step. -/
theorem c9_step_update_actions_witness :
    (runStepHandler [c9wEvent] (initAgentState "https://s") 0).1.actions =
      (initAgentState "https://s").actions ++
        stepProducedActions (initAgentState "https://s").currentPageUrl
          c9wEvent.toolCalls ∧
    ∃ u, (runStepHandler [c9wEvent] (initAgentState "https://s") 0).2.1 =
        [{ stepNumber := 0 + 1, actions := [], message := "",
           completed := false,
           currentUrl := (initAgentState "https://s").currentPageUrl }, u] ∧
      u.completed = true ∧
      u.actions = stepProducedActions
        (initAgentState "https://s").currentPageUrl c9wEvent.toolCalls :=
  c9_step_update_actions c9wEvent (initAgentState "https://s") 0
    (by decide) (by decide) (by decide)

/-- Claim C6: a `checkPauseState` rejection at a step boundary never
escapes `execute()` as an exception; the run returns a result with
`completed = false` whose actions are exactly those accumulated in the
steps that finished before the rejection.  For the OAuth loop (which
catches the rejection and breaks), the whole run equals the run truncated
at the rejecting boundary; for the AI-SDK path the handler re-throws, the
`catch` in `execute` converts it, and the returned actions are the prefix
state's actions. -/
theorem c6_pause_rejection (script : Nat → ScriptedStep) (maxSteps k : Nat)
    (initialPageUrl : String)
    (hk : k < maxSteps)
    (hgood : ∀ j < k, goodStep (script j))
    (hrej : ((script k).pauseRejects).isSome)
    (pre : List SdkStepEvent) (ev : SdkStepEvent) (rest : List SdkStepEvent)
    (m finalText sdkPageUrl : String)
    (hpre : ∀ e ∈ pre, e.pauseRejects = none)
    (hevm : ev.pauseRejects = some m) :
    executeWithCodeAssist script maxSteps initialPageUrl =
      executeWithCodeAssist script k initialPageUrl ∧
    (executeWithCodeAssist script maxSteps initialPageUrl).result.completed = false ∧
    (executeWithCodeAssist script maxSteps initialPageUrl).result.success = false ∧
    (executeSdk { events := pre ++ ev :: rest, providerFailure := none,
                  finalText := finalText, initialPageUrl := sdkPageUrl }).1.completed
      = false ∧
    (executeSdk { events := pre ++ ev :: rest, providerFailure := none,
                  finalText := finalText, initialPageUrl := sdkPageUrl }).1.actions
      = (runStepHandler pre (initAgentState sdkPageUrl) 0).1.actions := by
  have hloop := oauthLoop_pause_prefix script k maxSteps 0 0
    (initAgentState initialPageUrl) { updates := [], llmCalls := 0, toolResults := [] }
    hk (by intro j hj; simpa using hgood j hj) (by simpa using hrej) rfl
  have hmain : executeWithCodeAssist script maxSteps initialPageUrl =
      executeWithCodeAssist script k initialPageUrl := by
    simp only [executeWithCodeAssist, hloop]
  have hcomp : (oauthLoop script k 0 0 (initAgentState initialPageUrl)
      { updates := [], llmCalls := 0, toolResults := [] }).1.completed = false := by
    apply oauthLoop_completed_of_no_close script k 0 0 _ _ rfl
    intro j hj
    simpa using (hgood j hj).2.2.2
  have hcompleted :
      (executeWithCodeAssist script maxSteps initialPageUrl).result.completed = false := by
    rw [hmain]
    simpa [executeWithCodeAssist] using hcomp
  have hsuccess :
      (executeWithCodeAssist script maxSteps initialPageUrl).result.success = false := by
    rw [hmain]
    simpa [executeWithCodeAssist] using hcomp
  obtain ⟨hsplit1, hsplit2⟩ := runStepHandler_reject_split pre ev rest
    (initAgentState sdkPageUrl) 0 m hpre hevm
  have hexec : (executeSdk { events := pre ++ ev :: rest,
                             providerFailure := none,
                             finalText := finalText,
                             initialPageUrl := sdkPageUrl }).1 =
      { success := false,
        actions := (runStepHandler (pre ++ ev :: rest)
          (initAgentState sdkPageUrl) 0).1.actions,
        message := "Failed to execute task: " ++ m, completed := false } := by
    have hbody : (executeSdkBody { events := pre ++ ev :: rest,
                                   providerFailure := none,
                                   finalText := finalText,
                                   initialPageUrl := sdkPageUrl }).1 =
        SdkBodyResult.threw m (runStepHandler (pre ++ ev :: rest)
          (initAgentState sdkPageUrl) 0).1 := by
      simp only [executeSdkBody, hsplit2]
    rcases hb : executeSdkBody { events := pre ++ ev :: rest,
                                 providerFailure := none,
                                 finalText := finalText,
                                 initialPageUrl := sdkPageUrl } with ⟨res, ups⟩
    rw [hb] at hbody
    simp only at hbody
    subst hbody
    simp [executeSdk, hb]
  refine ⟨hmain, hcompleted, hsuccess, ?_, ?_⟩
  · rw [hexec]
  · rw [hexec]
    exact congrArg AgentState.actions hsplit1

/-- An OAuth run whose first step succeeds and whose second step boundary
rejects the pause check. -/
def c6Script : Nat → ScriptedStep := fun n =>
  if n = 0 then
    { text := "step one",
      toolCalls := [{ name := "act", mapped := [{ type := "act" }],
                      exec := ToolExec.ok "\"done\"" "https://p2" }] }
  else { pauseRejects := some "stopped by user" }

/-- The AI-SDK event prefix for the C6 witness: one completed step. -/
def c6Pre : List SdkStepEvent :=
  [{ text := "step one",
     toolCalls := [{ toolName := "act", mapped := [{ type := "act" }] }],
     urlAfterStep := "https://p2" }]

/-- The rejecting AI-SDK event for the C6 witness. -/
def c6Ev : SdkStepEvent := { pauseRejects := some "stopped by user" }

/-- Witness for C6 at a concrete run that is paused at step 2. -/
theorem c6_pause_rejection_witness :
    executeWithCodeAssist c6Script 5 "https://a" =
      executeWithCodeAssist c6Script 1 "https://a" ∧
    (executeWithCodeAssist c6Script 5 "https://a").result.completed = false ∧
    (executeWithCodeAssist c6Script 5 "https://a").result.success = false ∧
    (executeSdk { events := c6Pre ++ c6Ev :: [], providerFailure := none,
                  finalText := "", initialPageUrl := "https://b" }).1.completed
      = false ∧
    (executeSdk { events := c6Pre ++ c6Ev :: [], providerFailure := none,
                  finalText := "", initialPageUrl := "https://b" }).1.actions
      = (runStepHandler c6Pre (initAgentState "https://b") 0).1.actions :=
  c6_pause_rejection c6Script 5 1 "https://a" (by decide) (by decide) (by decide)
    c6Pre c6Ev [] "stopped by user" "" "https://b" (by decide) (by decide)

end Stagehand
